import Mathlib

/-!
Verification development for the node-simple-ipc library: a shallow
embedding of the wire protocol guards (src/utils/validation.ts), the
error serialization rule (src/utils/serialize-error.ts), the id
generator (src/utils/unique-id.ts) and the request/response engine of
the NodeSimpleIpc class (src/node-simple-ipc.ts), together with
theorems about correlation, settlement, registration and dispatch.
-/

namespace SimpleIpc

/-- A JavaScript runtime value, as far as the library inspects one:
the IPC channel delivers untyped values, the guards look at `typeof`,
the `in` operator and field access, and the engine reads string,
number and object fields.  Numbers are modelled as integers (every
number the library produces is an integer: `Date.now()` based ids). -/
inductive JsValue where
  | null
  | undefined
  | bool (b : Bool)
  | num (n : Int)
  | str (s : String)
  | obj (fields : List (String × JsValue))

/-- The JS `typeof` operator.  Note `typeof null` is `"object"`. -/
def jsTypeof : JsValue → String
  | .null => "object"
  | .undefined => "undefined"
  | .bool _ => "boolean"
  | .num _ => "number"
  | .str _ => "string"
  | .obj _ => "object"

/-- JS `String(v)` / template-literal conversion for the values the
library stringifies (integers render in decimal, objects with the
default `Object.prototype.toString`). -/
def jsToString : JsValue → String
  | .null => "null"
  | .undefined => "undefined"
  | .bool b => if b then "true" else "false"
  | .num n => toString n
  | .str s => s
  | .obj _ => "[object Object]"

/-- First binding of `key` in an object's field list (JS object
literals keep one binding per key). -/
def jsGetField (key : String) : List (String × JsValue) → JsValue
  | [] => .undefined
  | (k, v) :: rest => if k = key then v else jsGetField key rest

/-- Property read `v.key` as the engine uses it (only ever applied to
values already known to be objects; absent keys read as undefined). -/
def jsGet (key : String) : JsValue → JsValue
  | .obj fields => jsGetField key fields
  | _ => .undefined

/-- The JS `in` operator: key presence on an object, and a thrown
`TypeError` on every non-object operand — including `null`, which
passes a `typeof v === "object"` test first. -/
def jsIn (key : String) : JsValue → Except String Bool
  | .obj fields => .ok (fields.any (fun p => p.1 == key))
  | _ => .error "TypeError"

/-- JS strict equality `v === s` against a string literal. -/
def jsStrictEqStr (v : JsValue) (s : String) : Bool :=
  match v with
  | .str t => t == s
  | _ => false

/-- JS truthiness, used by `if (ipcOutput.error)`. -/
def jsTruthy : JsValue → Bool
  | .null => false
  | .undefined => false
  | .bool b => b
  | .num n => n != 0
  | .str s => s != ""
  | .obj _ => true

/-- `isIpcInput` from src/utils/validation.ts: `typeof data` must be
`"object"`, then `correlationId`, `name` and `type` must be present
(via the `in` operator, which can throw) and `type === 'I'`. -/
def isIpcInput (data : JsValue) : Except String Bool :=
  if jsTypeof data ≠ "object" then .ok false
  else do
    if ← jsIn "correlationId" data then
      if ← jsIn "name" data then
        if ← jsIn "type" data then
          return jsStrictEqStr (jsGet "type" data) "I"
        else return false
      else return false
    else return false

/-- `isIpcOutput` from src/utils/validation.ts: same fields with
`type === 'O'`. -/
def isIpcOutput (data : JsValue) : Except String Bool :=
  if jsTypeof data ≠ "object" then .ok false
  else do
    if ← jsIn "correlationId" data then
      if ← jsIn "name" data then
        if ← jsIn "type" data then
          return jsStrictEqStr (jsGet "type" data) "O"
        else return false
      else return false
    else return false

/-- `isIpcEvent` from src/utils/validation.ts: `name` and `type`
present and `type === 'E'`. -/
def isIpcEvent (data : JsValue) : Except String Bool :=
  if jsTypeof data ≠ "object" then .ok false
  else do
    if ← jsIn "name" data then
      if ← jsIn "type" data then
        return jsStrictEqStr (jsGet "type" data) "E"
      else return false
    else return false

/-- The result of `serializeError` (src/types): message plus optional
name and stack, the only fields that cross the wire. -/
structure SerializedError where
  message : String
  name : Option String := none
  stack : Option String := none

/-- A value thrown (or used to reject) by a handler: either an
`Error` instance, or an arbitrary non-Error value. -/
inductive JsError where
  | errObj (name message : String) (stack : Option String)
  | value (v : JsValue)

/-- `serializeError` from src/utils/serialize-error.ts: an `Error`
keeps its name, stack and message; any other thrown value becomes
`{ message: String(err) }` with no name and no stack. -/
def serializeError : JsError → SerializedError
  | .errObj n m s => { name := some n, stack := s, message := m }
  | .value v => { message := jsToString v }

/-- The wire form of a `SerializedError`. -/
def encodeSerializedError (e : SerializedError) : JsValue :=
  .obj ((match e.name with | some n => [("name", .str n)] | none => [])
    ++ (match e.stack with | some s => [("stack", .str s)] | none => [])
    ++ [("message", .str e.message)])

/-- `sendInput` from src/node-simple-ipc.ts: the Request message
`{ correlationId, name, data, type: 'I' }`; the correlation id is the
number `uniqueId()` returned. -/
def encodeInput (cid : Int) (name : String) (data : JsValue) : JsValue :=
  .obj [("correlationId", .num cid), ("name", .str name), ("data", data),
        ("type", .str "I")]

/-- `sendOutput` from src/node-simple-ipc.ts: the Response message
`{ ...partialOutput, correlationId, name, type: 'O' }`, where the
partial output is `{ data }` on success and `{ data: undefined,
error }` on failure, and correlation id and name are copied verbatim
from the inbound Request value. -/
def encodeOutput (cidVal nameVal : JsValue) (data : JsValue)
    (error : Option SerializedError) : JsValue :=
  .obj (("data", data)
    :: (match error with
        | some e => [("error", encodeSerializedError e)]
        | none => [])
    ++ [("correlationId", cidVal), ("name", nameVal), ("type", .str "O")])

/-- `emit` from src/node-simple-ipc.ts: the Notification message
`{ type: 'E', name, data }`. -/
def encodeEvent (name : String) (data : JsValue) : JsValue :=
  .obj [("type", .str "E"), ("name", .str name), ("data", data)]

/-- The engine's not-found reply text: `RPC "<name>" not found.` -/
def notFoundMessage (name : String) : String :=
  "RPC \"" ++ name ++ "\" not found."

/-- The Response `onIpcMessage` synthesizes for a Request whose name
has no registered handler: `sendOutput(data, { data: undefined,
error: { message: ... } })`. -/
def notFoundOutput (reqMsg : JsValue) : JsValue :=
  encodeOutput (jsGet "correlationId" reqMsg) (jsGet "name" reqMsg) .undefined
    (some { message := notFoundMessage (jsToString (jsGet "name" reqMsg)) })

/-- The `TimeoutError` text `act` rejects with. -/
def timeoutMessage (name : String) : String :=
  "Reply timeout. IPC name: " ++ name ++ "."

/-- How one pending `act` call settles: promise resolution, rejection
with a `RemoteError` (remote message plus the raw serialized-error
value), or rejection with a `TimeoutError`. -/
inductive Settlement where
  | resolved (v : JsValue)
  | rejectedRemote (message : String) (remote : JsValue)
  | rejectedTimeout (message : String)

/-- One pending `act` call: the `rpcEm` listener key its
`listenReply` handler is registered under (the property key the
numeric correlation id coerces to), the endpoint name, whether the
once-listener is still attached, whether the timeout timer is still
armed, how many times resolve/reject has been invoked, and the first
settlement. -/
structure CallState where
  key : String
  name : String
  listenerAttached : Bool
  timerActive : Bool
  settleAttempts : Nat
  settled : Option Settlement

/-- The call state `act` leaves behind after registering the
once-listener and arming the timer. -/
def initCall (cid : Int) (name : String) : CallState :=
  { key := jsToString (.num cid), name := name, listenerAttached := true,
    timerActive := true, settleAttempts := 0, settled := none }

/-- A promise settles at most once: the first resolve/reject wins,
later ones only bump the attempt counter. -/
def settleOnce (c : CallState) (s : Settlement) : CallState :=
  { c with settleAttempts := c.settleAttempts + 1,
           settled := match c.settled with
                      | some old => some old
                      | none => some s }

/-- `new Error(m)` message normalization: an undefined argument
leaves the message empty, anything else is stringified. -/
def errorMessageArg : JsValue → String
  | .undefined => ""
  | v => jsToString v

/-- `listenReply` from `act`: clear the timer, then reject with a
`RemoteError` when the response's error field is truthy, else
resolve with the response's data field. -/
def listenReply (c : CallState) (errVal dataVal : JsValue) : CallState :=
  let c := { c with timerActive := false }
  if jsTruthy errVal then
    settleOnce c (.rejectedRemote (errorMessageArg (jsGet "message" errVal)) errVal)
  else
    settleOnce c (.resolved dataVal)

/-- The two events that can reach one pending call: `rpcEm.emit` of a
Response (carrying the raw correlation id, error and data values),
and the timeout timer firing. -/
inductive CallEvent where
  | response (cidVal errVal dataVal : JsValue)
  | timerFire

/-- One event against one pending call.  A Response reaches the call
only while its once-listener is attached and the emitted key equals
the listener's key (Node removes a once-listener before invoking it).
The timer callback removes the listener and rejects with a
`TimeoutError`; a cleared timer never fires. -/
def stepCall (c : CallState) (e : CallEvent) : CallState :=
  match e with
  | .response cidVal errVal dataVal =>
      if c.listenerAttached ∧ jsToString cidVal = c.key then
        listenReply { c with listenerAttached := false } errVal dataVal
      else c
  | .timerFire =>
      if c.timerActive then
        settleOnce { c with timerActive := false, listenerAttached := false }
          (.rejectedTimeout (timeoutMessage c.name))
      else c

/-- A pending call under a sequence of events. -/
def runCall (c : CallState) (es : List CallEvent) : CallState :=
  es.foldl stepCall c

/-- The invariant tying settlement to listener/timer cleanup. -/
def CallInv (c : CallState) : Prop :=
  (c.settled.isSome → c.listenerAttached = false ∧ c.timerActive = false)
  ∧ c.settleAttempts = (if c.settled.isSome then 1 else 0)

/-- The state of a call whose matching successful Response arrived. -/
def resolvedCall (cid : Int) (name : String) (v : JsValue) : CallState :=
  { key := jsToString (.num cid), name := name, listenerAttached := false,
    timerActive := false, settleAttempts := 1,
    settled := some (.resolved v) }

/-- `uniqueId` from src/utils/unique-id.ts on an explicit module
state: given the current `Date.now()` reading and the stored
`prevUniqueId`, return the id and the new stored value. -/
def uniqueId (now prev : Int) : Int × Int :=
  if now ≤ prev then (prev + 1, prev + 1)
  else (now, now)

/-- The ids a sequence of `uniqueId()` calls returns, given the
`Date.now()` reading observed by each call. -/
def uniqueIdRun : List Int → Int → List Int
  | [], _ => []
  | now :: rest, prev =>
      let r := uniqueId now prev
      r.1 :: uniqueIdRun rest r.2

/-- One RPC endpoint registered by `add`: the identity of its
separately-attached transport `messageListener`, its name, and its
handler (success value or thrown value, synchronous and asynchronous
outcomes uniformly). -/
structure Endpoint where
  id : Int
  name : String
  run : JsValue → Except JsError JsValue

/-- One `eventsEm` subscriber installed by `on` or `once`. -/
structure EventSub where
  id : Int
  name : String
  once : Bool

/-- The state of one `NodeSimpleIpc` instance: the keys of
`registeredRpcNames`, the endpoint transport listeners in attach
order, the pending `act` calls (the `rpcEm` listeners), and the
`eventsEm` subscribers in attach order. -/
structure InstanceState where
  registeredRpcNames : List String
  endpoints : List Endpoint
  calls : List CallState
  eventSubs : List EventSub

/-- What processing one inbound value produces: the updated instance
state, the Response messages sent back over the channel, the
`(subscriber id, data)` deliveries made by `eventsEm`, and the
`(endpoint id, data)` handler invocations. -/
structure RecvResult where
  state : InstanceState
  sent : List JsValue
  delivered : List (Int × JsValue)
  invoked : List (Int × JsValue)

/-- The property names every plain object literal inherits from
`Object.prototype`: present on the prototype chain of the
`Record<string, number>` registry object even when no key was ever
set, and therefore seen by the JS `in` operator. -/
def objectPrototypeKeys : List String :=
  ["constructor", "hasOwnProperty", "isPrototypeOf", "propertyIsEnumerable",
   "toLocaleString", "toString", "valueOf", "__proto__", "__defineGetter__",
   "__defineSetter__", "__lookupGetter__", "__lookupSetter__"]

/-- JS `name in registry` on the registry object: the `in` operator
consults own keys and then the whole prototype chain, so every
property name of `Object.prototype` tests present even on an empty
registry. -/
def registryHas (regs : List String) (name : String) : Bool :=
  regs.contains name || objectPrototypeKeys.contains name

/-- `onIpcMessage` from src/node-simple-ipc.ts, the central message
handler: a Request whose name is not a key of `registeredRpcNames`
gets the not-found Response (a registered name is left to the
endpoint's own listener); a Response is re-emitted on `rpcEm` under
its correlation id, reaching every pending call listening on that
key; a Notification is fanned out on `eventsEm` (once-subscribers are
removed before delivery); anything else falls through.  The guards
can throw, which propagates out of the listener. -/
def onIpcMessage (st : InstanceState) (data : JsValue) :
    Except String (InstanceState × List JsValue × List (Int × JsValue)) := do
  if ← isIpcInput data then
    if !registryHas st.registeredRpcNames (jsToString (jsGet "name" data)) then
      return (st, [notFoundOutput data], [])
    else
      return (st, [], [])
  else if ← isIpcOutput data then
    return ({ st with calls := st.calls.map (fun c =>
        stepCall c (.response (jsGet "correlationId" data)
          (jsGet "error" data) (jsGet "data" data))) }, [], [])
  else if ← isIpcEvent data then
    let key := jsToString (jsGet "name" data)
    return ({ st with eventSubs :=
                st.eventSubs.filter (fun s => !(s.name == key && s.once)) }, [],
            (st.eventSubs.filter (fun s => s.name == key)).map
              (fun s => (s.id, jsGet "data" data)))
  else
    return (st, [], [])

/-- The per-endpoint `messageListener` closure created by `add`:
ignore everything that is not an IpcInput, ignore Requests for other
names (strict string comparison), otherwise invoke the handler and
send back one Response carrying its result or its serialized error.
Returns the messages sent and the handler invocations made. -/
def messageListener (ep : Endpoint) (message : JsValue) :
    Except String (List JsValue × List (Int × JsValue)) := do
  if !(← isIpcInput message) then
    return ([], [])
  else if !jsStrictEqStr (jsGet "name" message) ep.name then
    return ([], [])
  else
    match ep.run (jsGet "data" message) with
    | .ok v =>
        return ([encodeOutput (jsGet "correlationId" message)
                 (jsGet "name" message) v none],
                [(ep.id, jsGet "data" message)])
    | .error e =>
        return ([encodeOutput (jsGet "correlationId" message)
                 (jsGet "name" message) .undefined (some (serializeError e))],
                [(ep.id, jsGet "data" message)])

/-- All endpoint listeners against one inbound value, in attach
order. -/
def runListeners (eps : List Endpoint) (message : JsValue) :
    Except String (List JsValue × List (Int × JsValue)) :=
  match eps with
  | [] => .ok ([], [])
  | ep :: rest => do
      let (s1, i1) ← messageListener ep message
      let (s2, i2) ← runListeners rest message
      return (s1 ++ s2, i1 ++ i2)

/-- One inbound value against a whole instance: every `message`
listener of the transport runs — the central `messageHandler` first
(attached at construction), then each endpoint's listener. -/
def receive (st : InstanceState) (msg : JsValue) : Except String RecvResult := do
  let (st1, sent1, delivered) ← onIpcMessage st msg
  let (sent2, invoked) ← runListeners st1.endpoints msg
  return { state := st1, sent := sent1 ++ sent2,
           delivered := delivered, invoked := invoked }

/-- A sequence of inbound values against a whole instance, keeping
only the state. -/
def receiveAll (st : InstanceState) (msgs : List JsValue) :
    Except String InstanceState :=
  match msgs with
  | [] => .ok st
  | m :: rest => do
      let r ← receive st m
      receiveAll r.state rest

/-- `act` from src/node-simple-ipc.ts, up to the channel: validate
the name, register the once-listener and arm the timer (the
generated correlation id is passed in; `uniqueId` models its
generation), and produce the Request message that `sendInput` puts on
the wire. -/
def act (st : InstanceState) (cid : Int) (name : String) (data : JsValue) :
    Except String (InstanceState × JsValue) :=
  if name = "" then .error "IPC name must be a not empty string."
  else .ok ({ st with calls := st.calls ++ [initCall cid name] },
            encodeInput cid name data)

/-- `add` from src/node-simple-ipc.ts: validate the name, throw on a
duplicate registration before touching any state, otherwise record
the name and attach the endpoint listener.  The instance state is
returned alongside the outcome because a thrown error leaves the
instance as it was. -/
def add (st : InstanceState) (epId : Int) (name : String)
    (run : JsValue → Except JsError JsValue) :
    InstanceState × Except String Int :=
  if name = "" then (st, .error "IPC name must be a not empty string.")
  else if registryHas st.registeredRpcNames name then
    (st, .error ("The RPC named \"" ++ name ++ "\" already exists."))
  else
    ({ st with registeredRpcNames := st.registeredRpcNames ++ [name],
               endpoints := st.endpoints ++ [{ id := epId, name := name, run := run }] },
     .ok epId)

/-- The removal closure `add` returns: detach that endpoint's
listener and delete its name from `registeredRpcNames`. -/
def removeRpc (st : InstanceState) (epId : Int) (name : String) : InstanceState :=
  { st with endpoints := st.endpoints.filter (fun ep => ep.id != epId),
            registeredRpcNames := st.registeredRpcNames.filter (fun n => n != name) }

/-! The historical variant of the class (the one with
`startService`/`stopService`): its central handler sends the
not-found text without the trailing period, its removal closure does
not delete the registry key, and the central listener can be detached
while every endpoint listener stays attached. -/

/-- The historical not-found reply text: `RPC "<name>" not found`. -/
def notFoundMessageV1 (name : String) : String :=
  "RPC \"" ++ name ++ "\" not found"

/-- The historical variant's not-found Response. -/
def notFoundOutputV1 (reqMsg : JsValue) : JsValue :=
  encodeOutput (jsGet "correlationId" reqMsg) (jsGet "name" reqMsg) .undefined
    (some { message := notFoundMessageV1 (jsToString (jsGet "name" reqMsg)) })

/-- The historical variant's `onIpcMessage` (same flow, other
not-found text). -/
def onIpcMessageV1 (st : InstanceState) (data : JsValue) :
    Except String (InstanceState × List JsValue × List (Int × JsValue)) := do
  if ← isIpcInput data then
    if !registryHas st.registeredRpcNames (jsToString (jsGet "name" data)) then
      return (st, [notFoundOutputV1 data], [])
    else
      return (st, [], [])
  else if ← isIpcOutput data then
    return ({ st with calls := st.calls.map (fun c =>
        stepCall c (.response (jsGet "correlationId" data)
          (jsGet "error" data) (jsGet "data" data))) }, [], [])
  else if ← isIpcEvent data then
    let key := jsToString (jsGet "name" data)
    return ({ st with eventSubs :=
                st.eventSubs.filter (fun s => !(s.name == key && s.once)) }, [],
            (st.eventSubs.filter (fun s => s.name == key)).map
              (fun s => (s.id, jsGet "data" data)))
  else
    return (st, [], [])

/-- The historical variant's whole-instance state: the shared core
plus the `serviceStarted` flag and whether the central
`messageHandler` is attached to the transport. -/
structure V1State where
  serviceStarted : Bool
  centralAttached : Bool
  core : InstanceState

/-- `startService`: a no-op while started, else set the flag and
attach the central listener. -/
def startService (st : V1State) : V1State :=
  if st.serviceStarted then st
  else { st with serviceStarted := true, centralAttached := true }

/-- `stopService`: clear the flag and detach the central listener —
and nothing else. -/
def stopService (st : V1State) : V1State :=
  { st with serviceStarted := false, centralAttached := false }

/-- One inbound value against the historical variant: the central
handler runs only while attached; every endpoint listener always
runs. -/
def receiveV1 (st : V1State) (msg : JsValue) : Except String RecvResult := do
  let (core1, sent1, delivered) ←
    if st.centralAttached then onIpcMessageV1 st.core msg
    else .ok (st.core, [], [])
  let (sent2, invoked) ← runListeners core1.endpoints msg
  return { state := core1, sent := sent1 ++ sent2,
           delivered := delivered, invoked := invoked }

/-- The historical variant's removal closure: detach the endpoint's
listener only; the registry keeps the name. -/
def removeRpcV1 (st : V1State) (epId : Int) : V1State :=
  { st with core := { st.core with
      endpoints := st.core.endpoints.filter (fun ep => ep.id != epId) } }

/-- The `rpcEm` emission a Response message turns into. -/
def outputEvent (m : JsValue) : CallEvent :=
  .response (jsGet "correlationId" m) (jsGet "error" m) (jsGet "data" m)

/-- The Response an echo-style exchange produces for one call
`(correlation id, endpoint name, reply data)`. -/
def echoResponse (t : Int × String × JsValue) : JsValue :=
  encodeOutput (.num t.1) (.str t.2.1) t.2.2 none

/-- The state of a call rejected with a `RemoteError`. -/
def remoteRejectedCall (cid : Int) (name message : String) (remote : JsValue) :
    CallState :=
  { key := jsToString (.num cid), name := name, listenerAttached := false,
    timerActive := false, settleAttempts := 1,
    settled := some (.rejectedRemote message remote) }

/-- Whether a call event is a Response emitted under this listener
key. -/
def matchesKey (key : String) : CallEvent → Bool
  | .response cv _ _ => jsToString cv == key
  | .timerFire => false

/-! ### Evaluation of the wire guards on the messages the engine sends -/

theorem isIpcInput_encodeInput (cid : Int) (name : String) (data : JsValue) :
    isIpcInput (encodeInput cid name data) = .ok true := by
  simp [isIpcInput, encodeInput, jsTypeof, jsIn, jsGet, jsGetField, jsStrictEqStr,
    Bind.bind, Except.bind, Pure.pure, Except.pure]

theorem isIpcOutput_encodeInput (cid : Int) (name : String) (data : JsValue) :
    isIpcOutput (encodeInput cid name data) = .ok false := by
  simp [isIpcOutput, encodeInput, jsTypeof, jsIn, jsGet, jsGetField, jsStrictEqStr,
    Bind.bind, Except.bind, Pure.pure, Except.pure]

theorem isIpcEvent_encodeInput (cid : Int) (name : String) (data : JsValue) :
    isIpcEvent (encodeInput cid name data) = .ok false := by
  simp [isIpcEvent, encodeInput, jsTypeof, jsIn, jsGet, jsGetField, jsStrictEqStr,
    Bind.bind, Except.bind, Pure.pure, Except.pure]

theorem isIpcInput_encodeOutput (cv nv dv : JsValue) (eo : Option SerializedError) :
    isIpcInput (encodeOutput cv nv dv eo) = .ok false := by
  cases eo <;>
  simp [isIpcInput, encodeOutput, encodeSerializedError, jsTypeof, jsIn, jsGet,
    jsGetField, jsStrictEqStr, Bind.bind, Except.bind, Pure.pure, Except.pure]

theorem isIpcOutput_encodeOutput (cv nv dv : JsValue) (eo : Option SerializedError) :
    isIpcOutput (encodeOutput cv nv dv eo) = .ok true := by
  cases eo <;>
  simp [isIpcOutput, encodeOutput, encodeSerializedError, jsTypeof, jsIn, jsGet,
    jsGetField, jsStrictEqStr, Bind.bind, Except.bind, Pure.pure, Except.pure]

theorem isIpcInput_encodeEvent (name : String) (data : JsValue) :
    isIpcInput (encodeEvent name data) = .ok false := by
  simp [isIpcInput, encodeEvent, jsTypeof, jsIn, jsGet, jsGetField, jsStrictEqStr,
    Bind.bind, Except.bind, Pure.pure, Except.pure]

theorem isIpcOutput_encodeEvent (name : String) (data : JsValue) :
    isIpcOutput (encodeEvent name data) = .ok false := by
  simp [isIpcOutput, encodeEvent, jsTypeof, jsIn, jsGet, jsGetField, jsStrictEqStr,
    Bind.bind, Except.bind, Pure.pure, Except.pure]

theorem isIpcEvent_encodeEvent (name : String) (data : JsValue) :
    isIpcEvent (encodeEvent name data) = .ok true := by
  simp [isIpcEvent, encodeEvent, jsTypeof, jsIn, jsGet, jsGetField, jsStrictEqStr,
    Bind.bind, Except.bind, Pure.pure, Except.pure]

/-! ### Field reads on the messages the engine sends -/

theorem jsGet_correlationId_encodeInput (cid : Int) (name : String) (data : JsValue) :
    jsGet "correlationId" (encodeInput cid name data) = .num cid := by
  simp [encodeInput, jsGet, jsGetField]

theorem jsGet_name_encodeInput (cid : Int) (name : String) (data : JsValue) :
    jsGet "name" (encodeInput cid name data) = .str name := by
  simp [encodeInput, jsGet, jsGetField]

theorem jsGet_data_encodeInput (cid : Int) (name : String) (data : JsValue) :
    jsGet "data" (encodeInput cid name data) = data := by
  simp [encodeInput, jsGet, jsGetField]

theorem jsGet_correlationId_encodeOutput (cv nv dv : JsValue) (eo : Option SerializedError) :
    jsGet "correlationId" (encodeOutput cv nv dv eo) = cv := by
  cases eo <;> simp [encodeOutput, encodeSerializedError, jsGet, jsGetField]

theorem jsGet_name_encodeOutput (cv nv dv : JsValue) (eo : Option SerializedError) :
    jsGet "name" (encodeOutput cv nv dv eo) = nv := by
  cases eo <;> simp [encodeOutput, encodeSerializedError, jsGet, jsGetField]

theorem jsGet_data_encodeOutput (cv nv dv : JsValue) (eo : Option SerializedError) :
    jsGet "data" (encodeOutput cv nv dv eo) = dv := by
  cases eo <;> simp [encodeOutput, encodeSerializedError, jsGet, jsGetField]

theorem jsGet_error_encodeOutput_none (cv nv dv : JsValue) :
    jsGet "error" (encodeOutput cv nv dv none) = .undefined := by
  simp [encodeOutput, jsGet, jsGetField]

theorem jsGet_error_encodeOutput_some (cv nv dv : JsValue) (e : SerializedError) :
    jsGet "error" (encodeOutput cv nv dv (some e)) = encodeSerializedError e := by
  simp [encodeOutput, jsGet, jsGetField]

theorem jsGet_name_encodeEvent (name : String) (data : JsValue) :
    jsGet "name" (encodeEvent name data) = .str name := by
  simp [encodeEvent, jsGet, jsGetField]

theorem jsGet_data_encodeEvent (name : String) (data : JsValue) :
    jsGet "data" (encodeEvent name data) = data := by
  simp [encodeEvent, jsGet, jsGetField]

theorem jsGet_message_encodeSerializedError (e : SerializedError) :
    jsGet "message" (encodeSerializedError e) = .str e.message := by
  rcases e with ⟨m, n, s⟩
  cases n <;> cases s <;> simp [encodeSerializedError, jsGet, jsGetField]

theorem notFoundOutput_encodeInput (cid : Int) (name : String) (data : JsValue) :
    notFoundOutput (encodeInput cid name data)
      = encodeOutput (.num cid) (.str name) .undefined
          (some { message := notFoundMessage name }) := by
  simp [notFoundOutput, jsGet_correlationId_encodeInput, jsGet_name_encodeInput,
    jsToString]


/-! ### The central handler on each message shape -/

theorem registryHas_eq_false (regs : List String) (name : String)
    (h1 : name ∉ regs) (h2 : name ∉ objectPrototypeKeys) :
    registryHas regs name = false := by
  simp [registryHas, h1, h2]

theorem registryHas_of_mem (regs : List String) (name : String)
    (h : name ∈ regs) : registryHas regs name = true := by
  simp [registryHas, h]

theorem onIpcMessage_request_unregistered (st : InstanceState) (cid : Int)
    (name : String) (data : JsValue) (h1 : name ∉ st.registeredRpcNames)
    (h2 : name ∉ objectPrototypeKeys) :
    onIpcMessage st (encodeInput cid name data)
      = .ok (st, [notFoundOutput (encodeInput cid name data)], []) := by
  simp [onIpcMessage, isIpcInput_encodeInput, jsGet_name_encodeInput, jsToString,
    registryHas_eq_false st.registeredRpcNames name h1 h2,
    Bind.bind, Except.bind, Pure.pure, Except.pure]

theorem onIpcMessage_request_registered (st : InstanceState) (cid : Int)
    (name : String) (data : JsValue) (h : name ∈ st.registeredRpcNames) :
    onIpcMessage st (encodeInput cid name data) = .ok (st, [], []) := by
  simp [onIpcMessage, isIpcInput_encodeInput, jsGet_name_encodeInput, jsToString,
    registryHas_of_mem st.registeredRpcNames name h,
    Bind.bind, Except.bind, Pure.pure, Except.pure]

theorem onIpcMessage_response (st : InstanceState) (cv nv dv : JsValue)
    (eo : Option SerializedError) :
    onIpcMessage st (encodeOutput cv nv dv eo)
      = .ok ({ st with calls := st.calls.map (fun c =>
                 stepCall c (outputEvent (encodeOutput cv nv dv eo))) }, [], []) := by
  simp [onIpcMessage, isIpcInput_encodeOutput, isIpcOutput_encodeOutput, outputEvent,
    jsGet_correlationId_encodeOutput, jsGet_data_encodeOutput,
    Bind.bind, Except.bind, Pure.pure, Except.pure]

theorem onIpcMessage_notification (st : InstanceState) (name : String) (d : JsValue) :
    onIpcMessage st (encodeEvent name d)
      = .ok ({ st with eventSubs :=
                 st.eventSubs.filter (fun s => !(s.name == name && s.once)) }, [],
             (st.eventSubs.filter (fun s => s.name == name)).map
               (fun s => (s.id, d))) := by
  simp [onIpcMessage, isIpcInput_encodeEvent, isIpcOutput_encodeEvent,
    isIpcEvent_encodeEvent, jsGet_name_encodeEvent, jsGet_data_encodeEvent, jsToString,
    Bind.bind, Except.bind, Pure.pure, Except.pure]

/-! ### The per-endpoint listener -/

theorem messageListener_not_input (ep : Endpoint) (m : JsValue)
    (h : isIpcInput m = .ok false) : messageListener ep m = .ok ([], []) := by
  simp [messageListener, h, Bind.bind, Except.bind, Pure.pure, Except.pure]

theorem messageListener_other_name (ep : Endpoint) (cid : Int) (name : String)
    (data : JsValue) (h : name ≠ ep.name) :
    messageListener ep (encodeInput cid name data) = .ok ([], []) := by
  simp [messageListener, isIpcInput_encodeInput, jsGet_name_encodeInput,
    jsStrictEqStr, h, Bind.bind, Except.bind, Pure.pure, Except.pure]

theorem messageListener_run_ok (ep : Endpoint) (cid : Int) (name : String)
    (data v : JsValue) (hn : ep.name = name) (hrun : ep.run data = .ok v) :
    messageListener ep (encodeInput cid name data)
      = .ok ([encodeOutput (.num cid) (.str name) v none], [(ep.id, data)]) := by
  simp [messageListener, isIpcInput_encodeInput, jsGet_name_encodeInput,
    jsGet_data_encodeInput, jsGet_correlationId_encodeInput,
    jsStrictEqStr, hn, hrun, Bind.bind, Except.bind, Pure.pure, Except.pure]

theorem messageListener_run_throws (ep : Endpoint) (cid : Int) (name : String)
    (data : JsValue) (err : JsError) (hn : ep.name = name)
    (hrun : ep.run data = .error err) :
    messageListener ep (encodeInput cid name data)
      = .ok ([encodeOutput (.num cid) (.str name) .undefined (some (serializeError err))],
             [(ep.id, data)]) := by
  simp [messageListener, isIpcInput_encodeInput, jsGet_name_encodeInput,
    jsGet_data_encodeInput, jsGet_correlationId_encodeInput,
    jsStrictEqStr, hn, hrun, Bind.bind, Except.bind, Pure.pure, Except.pure]

theorem runListeners_skip (eps : List Endpoint) (m : JsValue)
    (h : isIpcInput m = .ok false) : runListeners eps m = .ok ([], []) := by
  induction eps with
  | nil => rfl
  | cons ep rest ih =>
      simp [runListeners, messageListener_not_input _ _ h, ih,
        Bind.bind, Except.bind, Pure.pure, Except.pure]

/-! ### Whole-instance receive on each message shape -/

theorem receive_response (st : InstanceState) (cv nv dv : JsValue)
    (eo : Option SerializedError) :
    receive st (encodeOutput cv nv dv eo)
      = .ok { state := { st with calls := st.calls.map (fun c =>
                  stepCall c (outputEvent (encodeOutput cv nv dv eo))) },
              sent := [], delivered := [], invoked := [] } := by
  simp [receive, onIpcMessage_response,
    runListeners_skip _ _ (isIpcInput_encodeOutput cv nv dv eo),
    Bind.bind, Except.bind, Pure.pure, Except.pure]

theorem receive_notification (st : InstanceState) (name : String) (d : JsValue) :
    receive st (encodeEvent name d)
      = .ok { state := { st with eventSubs :=
                  st.eventSubs.filter (fun s => !(s.name == name && s.once)) },
              sent := [],
              delivered := (st.eventSubs.filter (fun s => s.name == name)).map
                (fun s => (s.id, d)),
              invoked := [] } := by
  simp [receive, onIpcMessage_notification,
    runListeners_skip _ _ (isIpcInput_encodeEvent name d),
    Bind.bind, Except.bind, Pure.pure, Except.pure]


/-! ### The per-call settlement machine -/

theorem stepCall_detached (c : CallState) (e : CallEvent)
    (h1 : c.listenerAttached = false) (h2 : c.timerActive = false) :
    stepCall c e = c := by
  cases e <;> simp [stepCall, h1, h2]

theorem runCall_detached (c : CallState) (es : List CallEvent)
    (h1 : c.listenerAttached = false) (h2 : c.timerActive = false) :
    runCall c es = c := by
  induction es with
  | nil => rfl
  | cons e rest ih =>
      show runCall (stepCall c e) rest = c
      rw [stepCall_detached c e h1 h2]
      exact ih

theorem callInv_init (cid : Int) (name : String) : CallInv (initCall cid name) := by
  simp [CallInv, initCall]

theorem callInv_step (c : CallState) (e : CallEvent) (h : CallInv c) :
    CallInv (stepCall c e) := by
  rcases h with ⟨hcl, hat⟩
  cases hs : c.settled with
  | some s =>
      rw [stepCall_detached c e (hcl (by simp [hs])).1 (hcl (by simp [hs])).2]
      exact ⟨hcl, hat⟩
  | none =>
      simp [hs] at hat
      cases e with
      | response cv ev dv =>
          by_cases hc : c.listenerAttached ∧ jsToString cv = c.key
          · by_cases ht : jsTruthy ev
            · simp [stepCall, hc, listenReply, settleOnce, CallInv, hs, hat, ht]
            · simp [stepCall, hc, listenReply, settleOnce, CallInv, hs, hat, ht]
          · simp [stepCall, hc, CallInv, hs, hat, hcl]
      | timerFire =>
          by_cases ht : c.timerActive
          · simp [stepCall, ht, settleOnce, CallInv, hs, hat]
          · simp [stepCall, ht, CallInv, hs, hat, hcl]

theorem callInv_run (c : CallState) (es : List CallEvent) (h : CallInv c) :
    CallInv (runCall c es) := by
  induction es generalizing c with
  | nil => exact h
  | cons e rest ih =>
      show CallInv (runCall (stepCall c e) rest)
      exact ih _ (callInv_step c e h)

/-- C1: settlement happens exactly once per act call.  A matching
Response that wins the race detaches the once-listener, cancels the
timer and settles exactly once (resolving on a falsy error field,
rejecting with the RemoteError data otherwise); the timeout winning
removes the listener and rejects once with the TimeoutError text; and
under every event sequence the call settles at most once, with every
event arriving after settlement — a duplicate Response, a late
Response after timeout, or a late timer after a Response — leaving
the call state exactly unchanged. -/
theorem act_settlement_exactly_once (cid : Int) (name : String) (es : List CallEvent) :
    (∀ errVal dataVal,
      stepCall (initCall cid name) (.response (.num cid) errVal dataVal)
        = { key := jsToString (.num cid), name := name, listenerAttached := false,
            timerActive := false, settleAttempts := 1,
            settled := some (if jsTruthy errVal then
                .rejectedRemote (errorMessageArg (jsGet "message" errVal)) errVal
              else .resolved dataVal) })
    ∧ stepCall (initCall cid name) .timerFire
        = { key := jsToString (.num cid), name := name, listenerAttached := false,
            timerActive := false, settleAttempts := 1,
            settled := some (.rejectedTimeout (timeoutMessage name)) }
    ∧ (runCall (initCall cid name) es).settleAttempts ≤ 1
    ∧ ∀ e, (runCall (initCall cid name) es).settled.isSome →
        stepCall (runCall (initCall cid name) es) e = runCall (initCall cid name) es := by
  have hinv : CallInv (runCall (initCall cid name) es) :=
    callInv_run _ es (callInv_init cid name)
  refine ⟨?_, ?_, ?_, ?_⟩
  · intro errVal dataVal
    by_cases ht : jsTruthy errVal <;>
      simp [stepCall, initCall, listenReply, settleOnce, ht]
  · simp [stepCall, initCall, settleOnce, timeoutMessage]
  · rcases hinv with ⟨-, hat⟩
    rw [hat]
    split <;> simp
  · intro e hs
    exact stepCall_detached _ _ (hinv.1 hs).1 (hinv.1 hs).2


/-! ### The id generator -/

theorem uniqueId_gt_prev (now prev : Int) : prev < (uniqueId now prev).1 := by
  unfold uniqueId
  split <;> omega

theorem uniqueId_state_eq (now prev : Int) :
    (uniqueId now prev).2 = (uniqueId now prev).1 := by
  unfold uniqueId
  split <;> rfl

theorem mem_uniqueIdRun_gt (nows : List Int) (prev : Int) :
    ∀ y ∈ uniqueIdRun nows prev, prev < y := by
  induction nows generalizing prev with
  | nil => simp [uniqueIdRun]
  | cons n rest ih =>
      intro y hy
      simp only [uniqueIdRun, List.mem_cons] at hy
      rcases hy with rfl | hy
      · exact uniqueId_gt_prev n prev
      · have h1 := ih (uniqueId n prev).2 y hy
        have h2 : prev < (uniqueId n prev).2 := by
          rw [uniqueId_state_eq]
          exact uniqueId_gt_prev n prev
        omega

theorem uniqueIdRun_pairwise_lt (nows : List Int) (prev : Int) :
    (uniqueIdRun nows prev).Pairwise (· < ·) := by
  induction nows generalizing prev with
  | nil => simp [uniqueIdRun]
  | cons n rest ih =>
      simp only [uniqueIdRun, List.pairwise_cons]
      refine ⟨fun y hy => ?_, ih _⟩
      have h1 := mem_uniqueIdRun_gt rest (uniqueId n prev).2 y hy
      have h2 := uniqueId_state_eq n prev
      omega

/-- C8: `uniqueId` never repeats.  Whatever sequence of `Date.now()`
readings the calls observe — ties, or the clock running backwards —
each call returns a value strictly greater than the previous call's
return value (the returned ids form a strictly increasing chain and
are pairwise distinct), and after each call the stored `prevUniqueId`
equals the value just returned. -/
theorem unique_id_never_repeats (nows : List Int) (prev : Int) :
    (uniqueIdRun nows prev).Chain' (· < ·)
    ∧ (uniqueIdRun nows prev).Pairwise (· ≠ ·)
    ∧ ∀ now p, p < (uniqueId now p).1 ∧ (uniqueId now p).2 = (uniqueId now p).1 :=
  ⟨(uniqueIdRun_pairwise_lt nows prev).chain',
   (uniqueIdRun_pairwise_lt nows prev).imp (fun h => ne_of_lt h),
   fun now p => ⟨uniqueId_gt_prev now p, uniqueId_state_eq now p⟩⟩

/-- C7 fails at `null`: `typeof null` is `"object"`, so `null`
passes the guards' first test and reaches the `in` operator, which
throws a TypeError; processing an inbound `null` therefore raises
instead of being a silent no-op. -/
theorem on_ipc_message_null_raises :
    jsTypeof .null = "object"
    ∧ isIpcInput .null = .error "TypeError"
    ∧ isIpcOutput .null = .error "TypeError"
    ∧ isIpcEvent .null = .error "TypeError"
    ∧ onIpcMessage ⟨[], [], [], []⟩ .null = .error "TypeError"
    ∧ receive ⟨[], [], [], []⟩ .null = .error "TypeError" :=
  ⟨rfl, rfl, rfl, rfl, rfl, rfl⟩


theorem runListeners_no_match (eps : List Endpoint) (cid : Int) (name : String)
    (data : JsValue) (h : ∀ ep ∈ eps, ep.name ≠ name) :
    runListeners eps (encodeInput cid name data) = .ok ([], []) := by
  induction eps with
  | nil => rfl
  | cons ep rest ih =>
      have h1 : name ≠ ep.name := fun e => h ep (by simp) e.symm
      simp [runListeners, messageListener_other_name ep cid name data h1,
        ih (fun e he => h e (by simp [he])),
        Bind.bind, Except.bind, Pure.pure, Except.pure]

/-- C2: round-trip identity.  For a non-empty name and any data, if
the peer holds a registered handler for the name and the handler
returns successfully, `act` resolves with exactly the handler's
returned value: `act` registers the pending call and emits the
Request; the peer's instance dispatches it to the endpoint listener
alone (the central handler stays quiet for a registered name) and
sends back one Response carrying the handler's value; receiving that
Response settles the call as resolved with that exact value. -/
theorem rpc_round_trip_identity
    (cid epId : Int) (name : String) (data result : JsValue)
    (run : JsValue → Except JsError JsValue)
    (regsA regsB : List String) (subsA subsB : List EventSub) (callsB : List CallState)
    (hname : name ≠ "")
    (hrun : run data = .ok result)
    (hreg : name ∈ regsB) :
    act ⟨regsA, [], [], subsA⟩ cid name data
      = .ok (⟨regsA, [], [initCall cid name], subsA⟩, encodeInput cid name data)
    ∧ receive ⟨regsB, [⟨epId, name, run⟩], callsB, subsB⟩ (encodeInput cid name data)
      = .ok { state := ⟨regsB, [⟨epId, name, run⟩], callsB, subsB⟩,
              sent := [encodeOutput (.num cid) (.str name) result none],
              delivered := [], invoked := [(epId, data)] }
    ∧ receive ⟨regsA, [], [initCall cid name], subsA⟩
        (encodeOutput (.num cid) (.str name) result none)
      = .ok { state := ⟨regsA, [], [resolvedCall cid name result], subsA⟩,
              sent := [], delivered := [], invoked := [] } := by
  refine ⟨by simp [act, hname], ?_, ?_⟩
  · simp [receive,
      onIpcMessage_request_registered ⟨regsB, [⟨epId, name, run⟩], callsB, subsB⟩
        cid name data hreg,
      runListeners, messageListener_run_ok ⟨epId, name, run⟩ cid name data result rfl hrun,
      Bind.bind, Except.bind, Pure.pure, Except.pure]
  · rw [receive_response]
    simp [outputEvent, jsGet_correlationId_encodeOutput, jsGet_error_encodeOutput_none,
      jsGet_data_encodeOutput, stepCall, initCall, listenReply, settleOnce, jsTruthy,
      resolvedCall]

theorem rpc_round_trip_identity_witness :
    (("echo" : String) ≠ "")
    ∧ ((fun v => (.ok v : Except JsError JsValue)) (.str "x") = .ok (.str "x"))
    ∧ ("echo" ∈ ["echo"])
    ∧ (act ⟨[], [], [], []⟩ 1 "echo" (.str "x")
        = .ok (⟨[], [], [initCall 1 "echo"], []⟩, encodeInput 1 "echo" (.str "x"))
      ∧ receive ⟨["echo"], [⟨2, "echo", fun v => .ok v⟩], [], []⟩
          (encodeInput 1 "echo" (.str "x"))
        = .ok { state := ⟨["echo"], [⟨2, "echo", fun v => .ok v⟩], [], []⟩,
                sent := [encodeOutput (.num 1) (.str "echo") (.str "x") none],
                delivered := [], invoked := [(2, .str "x")] }
      ∧ receive ⟨[], [], [initCall 1 "echo"], []⟩
          (encodeOutput (.num 1) (.str "echo") (.str "x") none)
        = .ok { state := ⟨[], [], [resolvedCall 1 "echo" (.str "x")], []⟩,
                sent := [], delivered := [], invoked := [] }) :=
  ⟨by decide, rfl, by simp,
   rpc_round_trip_identity 1 2 "echo" (.str "x") (.str "x") (fun v => .ok v)
     [] ["echo"] [] [] [] (by decide) rfl (by simp)⟩


/-- C4 (amended): a Request for an unregistered name that is not an
inherited `Object.prototype` property name draws exactly one
Response, whose error field is the not-found serialized error (the
central handler sends it; no endpoint listener sends anything or runs
a handler), and the originating call rejects with a RemoteError whose
message is that text — which contains the endpoint name.  The
prototype-name restriction is forced: the registry check is the JS
`in` operator on an object literal, so a name like `toString` tests
present even on an empty registry and draws no Response at all. -/
theorem unregistered_rpc_not_found
    (cid : Int) (name : String) (data : JsValue)
    (stB : InstanceState) (regsA : List String) (subsA : List EventSub)
    (hreg : name ∉ stB.registeredRpcNames)
    (hproto : name ∉ objectPrototypeKeys)
    (heps : ∀ ep ∈ stB.endpoints, ep.name ≠ name) :
    receive stB (encodeInput cid name data)
      = .ok { state := stB, sent := [notFoundOutput (encodeInput cid name data)],
              delivered := [], invoked := [] }
    ∧ notFoundOutput (encodeInput cid name data)
        = encodeOutput (.num cid) (.str name) .undefined
            (some { message := notFoundMessage name })
    ∧ jsGet "error" (notFoundOutput (encodeInput cid name data))
        = encodeSerializedError { message := notFoundMessage name }
    ∧ notFoundMessage name = "RPC \"" ++ name ++ "\" not found."
    ∧ (∃ l r, notFoundMessage name = l ++ name ++ r)
    ∧ receive ⟨regsA, [], [initCall cid name], subsA⟩
        (notFoundOutput (encodeInput cid name data))
      = .ok { state := ⟨regsA, [], [remoteRejectedCall cid name (notFoundMessage name)
                  (encodeSerializedError { message := notFoundMessage name })], subsA⟩,
              sent := [], delivered := [], invoked := [] } := by
  refine ⟨?_, notFoundOutput_encodeInput cid name data, ?_, rfl,
    ⟨"RPC \"", "\" not found.", rfl⟩, ?_⟩
  · simp [receive, onIpcMessage_request_unregistered stB cid name data hreg hproto,
      runListeners_no_match stB.endpoints cid name data heps,
      Bind.bind, Except.bind, Pure.pure, Except.pure]
  · rw [notFoundOutput_encodeInput, jsGet_error_encodeOutput_some]
  · rw [notFoundOutput_encodeInput, receive_response]
    have hev : outputEvent (encodeOutput (.num cid) (.str name) .undefined
        (some { message := notFoundMessage name }))
        = .response (.num cid)
            (encodeSerializedError { message := notFoundMessage name }) .undefined := by
      simp [outputEvent, jsGet_correlationId_encodeOutput, jsGet_error_encodeOutput_some,
        jsGet_data_encodeOutput]
    rw [hev]
    have hstep : stepCall (initCall cid name)
        (.response (.num cid)
          (encodeSerializedError { message := notFoundMessage name }) .undefined)
        = remoteRejectedCall cid name (notFoundMessage name)
            (encodeSerializedError { message := notFoundMessage name }) := by
      simp [stepCall, initCall, listenReply, settleOnce, jsTruthy,
        encodeSerializedError, jsGet, jsGetField, errorMessageArg, jsToString,
        remoteRejectedCall]
    simp [hstep]

theorem unregistered_rpc_not_found_witness :
    (("nope" : String) ∉ ([] : List String))
    ∧ (("nope" : String) ∉ objectPrototypeKeys)
    ∧ (receive ⟨[], [], [], []⟩ (encodeInput 7 "nope" .null)
        = .ok { state := ⟨[], [], [], []⟩,
                sent := [notFoundOutput (encodeInput 7 "nope" .null)],
                delivered := [], invoked := [] }
      ∧ notFoundOutput (encodeInput 7 "nope" .null)
          = encodeOutput (.num 7) (.str "nope") .undefined
              (some { message := notFoundMessage "nope" })
      ∧ jsGet "error" (notFoundOutput (encodeInput 7 "nope" .null))
          = encodeSerializedError { message := notFoundMessage "nope" }
      ∧ notFoundMessage "nope" = "RPC \"" ++ "nope" ++ "\" not found."
      ∧ (∃ l r, notFoundMessage "nope" = l ++ "nope" ++ r)
      ∧ receive ⟨[], [], [initCall 7 "nope"], []⟩
          (notFoundOutput (encodeInput 7 "nope" .null))
        = .ok { state := ⟨[], [], [remoteRejectedCall 7 "nope" (notFoundMessage "nope")
                    (encodeSerializedError { message := notFoundMessage "nope" })], []⟩,
                sent := [], delivered := [], invoked := [] }) :=
  ⟨by simp, by decide,
   unregistered_rpc_not_found 7 "nope" .null ⟨[], [], [], []⟩ [] []
     (by simp) (by decide) (by simp)⟩

/-- C4 is false as originally stated: `toString` is a non-empty name
with no registered handler anywhere, yet an inbound Request for it
draws no Response at all — the `in` check sees the inherited
`Object.prototype.toString`, the central handler stays silent, and
the originating call can only settle by timeout, rejecting with the
TimeoutError rather than a not-found RemoteError. -/
theorem unregistered_rpc_not_found_counterexample :
    ("toString" : String) ≠ ""
    ∧ receive ⟨[], [], [], []⟩ (encodeInput 7 "toString" .null)
        = .ok { state := ⟨[], [], [], []⟩, sent := [], delivered := [],
                invoked := [] }
    ∧ (runCall (initCall 7 "toString") [.timerFire]).settled
        = some (.rejectedTimeout (timeoutMessage "toString")) :=
  ⟨by decide, rfl, rfl⟩

/-- C6: a handler that throws a non-Error value produces a Response
whose error field is `{ message: String(v) }` with no name and no
stack, and the caller's pending call rejects with a RemoteError
whose message equals the stringified thrown value. -/
theorem non_error_throw_serializes_to_message
    (cid epId : Int) (name : String) (data v : JsValue)
    (run : JsValue → Except JsError JsValue)
    (regsA regsB : List String) (subsA subsB : List EventSub) (callsB : List CallState)
    (hrun : run data = .error (.value v))
    (hreg : name ∈ regsB) :
    serializeError (.value v)
      = { message := jsToString v, name := none, stack := none }
    ∧ encodeSerializedError (serializeError (.value v))
        = .obj [("message", .str (jsToString v))]
    ∧ receive ⟨regsB, [⟨epId, name, run⟩], callsB, subsB⟩ (encodeInput cid name data)
      = .ok { state := ⟨regsB, [⟨epId, name, run⟩], callsB, subsB⟩,
              sent := [encodeOutput (.num cid) (.str name) .undefined
                (some (serializeError (.value v)))],
              delivered := [], invoked := [(epId, data)] }
    ∧ receive ⟨regsA, [], [initCall cid name], subsA⟩
        (encodeOutput (.num cid) (.str name) .undefined (some (serializeError (.value v))))
      = .ok { state := ⟨regsA, [], [remoteRejectedCall cid name (jsToString v)
                  (encodeSerializedError (serializeError (.value v)))], subsA⟩,
              sent := [], delivered := [], invoked := [] } := by
  refine ⟨rfl, rfl, ?_, ?_⟩
  · simp [receive,
      onIpcMessage_request_registered ⟨regsB, [⟨epId, name, run⟩], callsB, subsB⟩
        cid name data hreg,
      runListeners,
      messageListener_run_throws ⟨epId, name, run⟩ cid name data (.value v) rfl hrun,
      Bind.bind, Except.bind, Pure.pure, Except.pure]
  · rw [receive_response]
    have hev : outputEvent (encodeOutput (.num cid) (.str name) .undefined
        (some (serializeError (.value v))))
        = .response (.num cid)
            (encodeSerializedError (serializeError (.value v))) .undefined := by
      simp [outputEvent, jsGet_correlationId_encodeOutput, jsGet_error_encodeOutput_some,
        jsGet_data_encodeOutput]
    rw [hev]
    have hstep : stepCall (initCall cid name)
        (.response (.num cid)
          (encodeSerializedError (serializeError (.value v))) .undefined)
        = remoteRejectedCall cid name (jsToString v)
            (encodeSerializedError (serializeError (.value v))) := by
      simp [stepCall, initCall, listenReply, settleOnce, jsTruthy, serializeError,
        encodeSerializedError, jsGet, jsGetField, errorMessageArg, jsToString,
        remoteRejectedCall]
    simp [hstep]

theorem non_error_throw_serializes_to_message_witness :
    ((fun _ => (.error (.value (.str "boom")) : Except JsError JsValue)) JsValue.null
        = .error (.value (.str "boom")))
    ∧ ("f" ∈ ["f"])
    ∧ (serializeError (.value (.str "boom"))
        = { message := jsToString (.str "boom"), name := none, stack := none }
      ∧ encodeSerializedError (serializeError (.value (.str "boom")))
          = .obj [("message", .str (jsToString (.str "boom")))]
      ∧ receive ⟨["f"], [⟨4, "f", fun _ => .error (.value (.str "boom"))⟩], [], []⟩
          (encodeInput 3 "f" .null)
        = .ok { state := ⟨["f"], [⟨4, "f", fun _ => .error (.value (.str "boom"))⟩], [], []⟩,
                sent := [encodeOutput (.num 3) (.str "f") .undefined
                  (some (serializeError (.value (.str "boom"))))],
                delivered := [], invoked := [(4, .null)] }
      ∧ receive ⟨[], [], [initCall 3 "f"], []⟩
          (encodeOutput (.num 3) (.str "f") .undefined
            (some (serializeError (.value (.str "boom")))))
        = .ok { state := ⟨[], [], [remoteRejectedCall 3 "f" (jsToString (.str "boom"))
                    (encodeSerializedError (serializeError (.value (.str "boom"))))], []⟩,
                sent := [], delivered := [], invoked := [] }) :=
  ⟨rfl, by simp,
   non_error_throw_serializes_to_message 3 4 "f" .null (.str "boom")
     (fun _ => .error (.value (.str "boom"))) [] ["f"] [] [] [] rfl (by simp)⟩


/-- C9: RPC endpoint names and event names live in disjoint dispatch
tables.  With an RPC endpoint and event subscribers registered under
the identical name on one instance, an inbound Notification for that
name is delivered only to the matching event subscribers — no
handler invocation, nothing sent — and an inbound Request for that
name invokes only the RPC handler — no subscriber delivery, the
subscriber table unchanged. -/
theorem rpc_event_namespaces_disjoint
    (cid epId : Int) (n : String) (d ed r : JsValue)
    (run : JsValue → Except JsError JsValue)
    (regs : List String) (subs : List EventSub) (calls : List CallState)
    (hreg : n ∈ regs) (hrun : run d = .ok r) :
    receive ⟨regs, [⟨epId, n, run⟩], calls, subs⟩ (encodeEvent n ed)
      = .ok { state := ⟨regs, [⟨epId, n, run⟩], calls,
                subs.filter (fun s => !(s.name == n && s.once))⟩,
              sent := [],
              delivered := (subs.filter (fun s => s.name == n)).map
                (fun s => (s.id, ed)),
              invoked := [] }
    ∧ receive ⟨regs, [⟨epId, n, run⟩], calls, subs⟩ (encodeInput cid n d)
      = .ok { state := ⟨regs, [⟨epId, n, run⟩], calls, subs⟩,
              sent := [encodeOutput (.num cid) (.str n) r none],
              delivered := [], invoked := [(epId, d)] } := by
  constructor
  · simp [receive_notification]
  · simp [receive,
      onIpcMessage_request_registered ⟨regs, [⟨epId, n, run⟩], calls, subs⟩
        cid n d hreg,
      runListeners, messageListener_run_ok ⟨epId, n, run⟩ cid n d r rfl hrun,
      Bind.bind, Except.bind, Pure.pure, Except.pure]

theorem rpc_event_namespaces_disjoint_witness :
    (("dual" : String) ∈ ["dual"])
    ∧ ((fun v => (.ok v : Except JsError JsValue)) (.str "q") = .ok (.str "q"))
    ∧ (receive ⟨["dual"], [⟨1, "dual", fun v => .ok v⟩], [],
          [⟨9, "dual", false⟩]⟩ (encodeEvent "dual" (.str "e"))
        = .ok { state := ⟨["dual"], [⟨1, "dual", fun v => .ok v⟩], [],
                  ([EventSub.mk 9 "dual" false]).filter (fun s => !(s.name == "dual" && s.once))⟩,
                sent := [],
                delivered := (([EventSub.mk 9 "dual" false]).filter
                  (fun s => s.name == "dual")).map (fun s => (s.id, .str "e")),
                invoked := [] }
      ∧ receive ⟨["dual"], [⟨1, "dual", fun v => .ok v⟩], [],
          [⟨9, "dual", false⟩]⟩ (encodeInput 3 "dual" (.str "q"))
        = .ok { state := ⟨["dual"], [⟨1, "dual", fun v => .ok v⟩], [],
                  [⟨9, "dual", false⟩]⟩,
                sent := [encodeOutput (.num 3) (.str "dual") (.str "q") none],
                delivered := [], invoked := [(1, .str "q")] }) :=
  ⟨by simp, rfl,
   rpc_event_namespaces_disjoint 3 1 "dual" (.str "q") (.str "e") (.str "q")
     (fun v => .ok v) ["dual"] [EventSub.mk 9 "dual" false] [] (by simp) rfl⟩

/-- C5 (amended): for a name that is not an inherited
`Object.prototype` property name, registering an already registered
name throws the duplicate error synchronously and leaves the
instance exactly as it was; calling the removal token returned by
the first registration restores the instance (the name becomes
eligible again, a subsequent `add` succeeds) and inbound Requests
for the name again draw the not-found Response.  The restriction is
forced: the duplicate check is the JS `in` operator, so
`add("toString", h)` throws the duplicate error even on a fresh
registry. -/
theorem duplicate_add_throws_and_removal_reenables
    (st : InstanceState) (f1 f2 f3 cid : Int) (name : String) (data : JsValue)
    (run1 run2 run3 : JsValue → Except JsError JsValue)
    (hname : name ≠ "")
    (hreg : name ∉ st.registeredRpcNames)
    (hproto : name ∉ objectPrototypeKeys)
    (heps : ∀ ep ∈ st.endpoints, ep.name ≠ name ∧ ep.id ≠ f1) :
    (add st f1 name run1).2 = .ok f1
    ∧ add (add st f1 name run1).1 f2 name run2
        = ((add st f1 name run1).1,
           .error ("The RPC named \"" ++ name ++ "\" already exists."))
    ∧ removeRpc (add st f1 name run1).1 f1 name = st
    ∧ (add (removeRpc (add st f1 name run1).1 f1 name) f3 name run3).2 = .ok f3
    ∧ receive (removeRpc (add st f1 name run1).1 f1 name) (encodeInput cid name data)
        = .ok { state := st, sent := [notFoundOutput (encodeInput cid name data)],
                delivered := [], invoked := [] } := by
  have hadd : add st f1 name run1
      = ({ st with registeredRpcNames := st.registeredRpcNames ++ [name],
                   endpoints := st.endpoints ++ [Endpoint.mk f1 name run1] }, .ok f1) := by
    simp [add, hname, registryHas_eq_false st.registeredRpcNames name hreg hproto]
  have he : (st.endpoints ++ [Endpoint.mk f1 name run1]).filter (fun ep => ep.id != f1)
      = st.endpoints := by
    rw [List.filter_append]
    have h0 : st.endpoints.filter (fun ep => ep.id != f1) = st.endpoints :=
      List.filter_eq_self.mpr (fun a ha => by
        simp only [bne_iff_ne]
        exact (heps a ha).2)
    simp [h0]
  have hr : (st.registeredRpcNames ++ [name]).filter (fun nm => nm != name)
      = st.registeredRpcNames := by
    rw [List.filter_append]
    have h0 : st.registeredRpcNames.filter (fun nm => nm != name)
        = st.registeredRpcNames :=
      List.filter_eq_self.mpr (fun a ha => by
        simp only [bne_iff_ne]
        intro e
        exact hreg (e ▸ ha))
    simp [h0]
  have hrem : removeRpc (add st f1 name run1).1 f1 name = st := by
    rw [hadd]
    simp [removeRpc, he, hr]
  refine ⟨by rw [hadd], ?_, hrem, ?_, ?_⟩
  · rw [hadd]
    simp [add, hname,
      registryHas_of_mem (st.registeredRpcNames ++ [name]) name (by simp)]
  · rw [hrem]
    simp [add, hname, registryHas_eq_false st.registeredRpcNames name hreg hproto]
  · rw [hrem]
    simp [receive, onIpcMessage_request_unregistered st cid name data hreg hproto,
      runListeners_no_match st.endpoints cid name data (fun ep h => (heps ep h).1),
      Bind.bind, Except.bind, Pure.pure, Except.pure]

theorem duplicate_add_throws_and_removal_reenables_witness :
    (("a" : String) ≠ "")
    ∧ (("a" : String) ∉ ([] : List String))
    ∧ (("a" : String) ∉ objectPrototypeKeys)
    ∧ ((add ⟨[], [], [], []⟩ 1 "a" (fun _ => .ok .null)).2 = .ok 1
      ∧ add (add ⟨[], [], [], []⟩ 1 "a" (fun _ => .ok .null)).1 2 "a"
            (fun _ => .ok .null)
          = ((add ⟨[], [], [], []⟩ 1 "a" (fun _ => .ok .null)).1,
             .error ("The RPC named \"" ++ "a" ++ "\" already exists."))
      ∧ removeRpc (add ⟨[], [], [], []⟩ 1 "a" (fun _ => .ok .null)).1 1 "a"
          = ⟨[], [], [], []⟩
      ∧ (add (removeRpc (add ⟨[], [], [], []⟩ 1 "a" (fun _ => .ok .null)).1 1 "a")
            3 "a" (fun _ => .ok .null)).2 = .ok 3
      ∧ receive (removeRpc (add ⟨[], [], [], []⟩ 1 "a" (fun _ => .ok .null)).1 1 "a")
            (encodeInput 9 "a" .null)
          = .ok { state := ⟨[], [], [], []⟩,
                  sent := [notFoundOutput (encodeInput 9 "a" .null)],
                  delivered := [], invoked := [] }) :=
  ⟨by decide, by simp, by decide,
   duplicate_add_throws_and_removal_reenables ⟨[], [], [], []⟩ 1 2 3 9 "a" .null
     (fun _ => .ok .null) (fun _ => .ok .null) (fun _ => .ok .null)
     (by decide) (by simp) (by decide) (by simp)⟩

/-- C5 is false as originally stated: on a fresh instance with an
empty registry, the very first `add("toString", h)` already throws
the duplicate-registration error — the JS `in` operator sees the
inherited `Object.prototype.toString` — so the name can never be
registered, removed or re-registered, and its claimed
register/duplicate/remove/re-register cycle is impossible. -/
theorem duplicate_add_counterexample :
    ("toString" : String) ≠ ""
    ∧ add ⟨[], [], [], []⟩ 1 "toString" (fun _ => .ok .null)
        = (⟨[], [], [], []⟩,
           .error ("The RPC named \"" ++ "toString" ++ "\" already exists.")) :=
  ⟨by decide, rfl⟩

/-- C10: `stopService` detaches only the central message listener:
the flag clears and the core state — registry, endpoint listeners,
pending calls, event subscribers — is untouched.  Afterwards inbound
Responses and Notifications change nothing and deliver nothing, while
a registered endpoint still receives inbound Requests and sends its
reply, until its own removal token detaches it (which, in this
variant, keeps the registry name). -/
theorem stop_service_detaches_central_only
    (st : V1State) (cid epId : Int) (nm : String) (d r cv nv dv : JsValue)
    (eo : Option SerializedError) (en : String) (ed : JsValue)
    (run : JsValue → Except JsError JsValue)
    (heps : st.core.endpoints = [⟨epId, nm, run⟩])
    (hrun : run d = .ok r) :
    (stopService st).core = st.core
    ∧ (stopService st).centralAttached = false
    ∧ (stopService st).serviceStarted = false
    ∧ receiveV1 (stopService st) (encodeOutput cv nv dv eo)
        = .ok { state := st.core, sent := [], delivered := [], invoked := [] }
    ∧ receiveV1 (stopService st) (encodeEvent en ed)
        = .ok { state := st.core, sent := [], delivered := [], invoked := [] }
    ∧ receiveV1 (stopService st) (encodeInput cid nm d)
        = .ok { state := st.core,
                sent := [encodeOutput (.num cid) (.str nm) r none],
                delivered := [], invoked := [(epId, d)] }
    ∧ (removeRpcV1 (stopService st) epId).core = { st.core with endpoints := [] }
    ∧ receiveV1 (removeRpcV1 (stopService st) epId) (encodeInput cid nm d)
        = .ok { state := { st.core with endpoints := [] },
                sent := [], delivered := [], invoked := [] } := by
  refine ⟨rfl, rfl, rfl, ?_, ?_, ?_, ?_, ?_⟩
  · simp [receiveV1, stopService,
      runListeners_skip _ _ (isIpcInput_encodeOutput cv nv dv eo),
      Bind.bind, Except.bind, Pure.pure, Except.pure]
  · simp [receiveV1, stopService,
      runListeners_skip _ _ (isIpcInput_encodeEvent en ed),
      Bind.bind, Except.bind, Pure.pure, Except.pure]
  · simp [receiveV1, stopService, heps, runListeners,
      messageListener_run_ok ⟨epId, nm, run⟩ cid nm d r rfl hrun,
      Bind.bind, Except.bind, Pure.pure, Except.pure]
  · simp [removeRpcV1, stopService, heps]
  · simp [receiveV1, removeRpcV1, stopService, heps, runListeners,
      Bind.bind, Except.bind, Pure.pure, Except.pure]

theorem stop_service_detaches_central_only_witness :
    ((⟨true, true, ⟨["a"], [⟨5, "a", fun v => .ok v⟩], [], []⟩⟩ :
        V1State).core.endpoints = [⟨5, "a", fun v => .ok v⟩])
    ∧ ((fun v => (.ok v : Except JsError JsValue)) (.str "q") = .ok (.str "q"))
    ∧ ((stopService ⟨true, true, ⟨["a"], [⟨5, "a", fun v => .ok v⟩], [], []⟩⟩).core
        = (⟨true, true, ⟨["a"], [⟨5, "a", fun v => .ok v⟩], [], []⟩⟩ : V1State).core
      ∧ (stopService ⟨true, true, ⟨["a"], [⟨5, "a", fun v => .ok v⟩], [], []⟩⟩).centralAttached = false
      ∧ (stopService ⟨true, true, ⟨["a"], [⟨5, "a", fun v => .ok v⟩], [], []⟩⟩).serviceStarted = false
      ∧ receiveV1 (stopService ⟨true, true, ⟨["a"], [⟨5, "a", fun v => .ok v⟩], [], []⟩⟩)
            (encodeOutput .null .null .null none)
          = .ok { state := ⟨["a"], [⟨5, "a", fun v => .ok v⟩], [], []⟩,
                  sent := [], delivered := [], invoked := [] }
      ∧ receiveV1 (stopService ⟨true, true, ⟨["a"], [⟨5, "a", fun v => .ok v⟩], [], []⟩⟩)
            (encodeEvent "e" .null)
          = .ok { state := ⟨["a"], [⟨5, "a", fun v => .ok v⟩], [], []⟩,
                  sent := [], delivered := [], invoked := [] }
      ∧ receiveV1 (stopService ⟨true, true, ⟨["a"], [⟨5, "a", fun v => .ok v⟩], [], []⟩⟩)
            (encodeInput 1 "a" (.str "q"))
          = .ok { state := ⟨["a"], [⟨5, "a", fun v => .ok v⟩], [], []⟩,
                  sent := [encodeOutput (.num 1) (.str "a") (.str "q") none],
                  delivered := [], invoked := [(5, .str "q")] }
      ∧ (removeRpcV1 (stopService ⟨true, true, ⟨["a"], [⟨5, "a", fun v => .ok v⟩], [], []⟩⟩) 5).core
          = { (⟨true, true, ⟨["a"], [⟨5, "a", fun v => .ok v⟩], [], []⟩⟩ :
                V1State).core with endpoints := [] }
      ∧ receiveV1 (removeRpcV1 (stopService ⟨true, true, ⟨["a"], [⟨5, "a", fun v => .ok v⟩], [], []⟩⟩) 5)
            (encodeInput 1 "a" (.str "q"))
          = .ok { state := { (⟨true, true, ⟨["a"], [⟨5, "a", fun v => .ok v⟩], [], []⟩⟩ :
                      V1State).core with endpoints := [] },
                  sent := [], delivered := [], invoked := [] }) :=
  ⟨rfl, rfl,
   stop_service_detaches_central_only
     ⟨true, true, ⟨["a"], [⟨5, "a", fun v => .ok v⟩], [], []⟩⟩ 1 5 "a"
     (.str "q") (.str "q") .null .null .null none "e" .null (fun v => .ok v)
     rfl rfl⟩


theorem stepCall_response_miss (c : CallState) (cv ev dv : JsValue)
    (h : jsToString cv ≠ c.key) : stepCall c (.response cv ev dv) = c := by
  simp [stepCall, h]

theorem outputEvent_echoResponse (t : Int × String × JsValue) :
    outputEvent (echoResponse t) = .response (.num t.1) .undefined t.2.2 := by
  simp [outputEvent, echoResponse, jsGet_correlationId_encodeOutput,
    jsGet_error_encodeOutput_none, jsGet_data_encodeOutput]

theorem outputEvent_ne_timerFire (m : JsValue) : outputEvent m ≠ .timerFire := by
  simp [outputEvent]

theorem runCall_single_match (cid : Int) (nm : String) (v : JsValue)
    (es : List CallEvent)
    (hcount : es.countP (matchesKey (jsToString (.num cid))) = 1)
    (hmem : ∀ e ∈ es, matchesKey (jsToString (.num cid)) e = true →
        e = .response (.num cid) .undefined v)
    (hresp : ∀ e ∈ es, e ≠ .timerFire) :
    runCall (initCall cid nm) es = resolvedCall cid nm v := by
  induction es with
  | nil => simp at hcount
  | cons e rest ih =>
      by_cases hm : matchesKey (jsToString (.num cid)) e = true
      · have he := hmem e (by simp) hm
        subst he
        show runCall (stepCall (initCall cid nm) (.response (.num cid) .undefined v)) rest
          = resolvedCall cid nm v
        have hstep : stepCall (initCall cid nm) (.response (.num cid) .undefined v)
            = resolvedCall cid nm v := by
          simp [stepCall, initCall, listenReply, settleOnce, jsTruthy, resolvedCall]
        rw [hstep]
        exact runCall_detached _ rest rfl rfl
      · cases e with
        | timerFire => exact absurd rfl (hresp .timerFire (by simp))
        | response cv ev dv =>
            have hk : jsToString cv ≠ jsToString (JsValue.num cid) := by
              simpa [matchesKey] using hm
            show runCall (stepCall (initCall cid nm) (.response cv ev dv)) rest
              = resolvedCall cid nm v
            rw [stepCall_response_miss _ cv ev dv (by simpa [initCall] using hk)]
            refine ih ?_ (fun e he hme => hmem e (by simp [he]) hme)
              (fun e he => hresp e (by simp [he]))
            simpa [List.countP_cons, hm] using hcount

theorem receiveAll_responses (st : InstanceState) (rs : List JsValue)
    (hend : st.endpoints = [])
    (hout : ∀ m ∈ rs, ∃ cv nv dv eo, m = encodeOutput cv nv dv eo) :
    receiveAll st rs
      = .ok { st with calls :=
          st.calls.map (fun c => runCall c (rs.map outputEvent)) } := by
  induction rs generalizing st with
  | nil => simp [receiveAll, runCall]
  | cons m rest ih =>
      obtain ⟨cv, nv, dv, eo, rfl⟩ := hout m (by simp)
      show (do
        let r ← receive st (encodeOutput cv nv dv eo)
        receiveAll r.state rest) = _
      rw [receive_response]
      show receiveAll { st with calls := st.calls.map (fun c =>
          stepCall c (outputEvent (encodeOutput cv nv dv eo))) } rest = _
      have hstep := ih { st with calls := st.calls.map (fun c =>
          stepCall c (outputEvent (encodeOutput cv nv dv eo))) }
        hend (fun m hm => hout m (by simp [hm]))
      rw [hstep]
      simp [List.map_map, Function.comp, runCall, List.foldl_cons]


/-- C3: replies are demultiplexed purely by correlation id.  With any
number of pending calls whose correlation keys are pairwise distinct,
delivering the matching successful Responses in any permutation of
send order settles every call as resolved with its own value. -/
theorem act_demux_any_reply_order
    (ts : List (Int × String × JsValue))
    (regs : List String) (subs : List EventSub)
    (rs : List JsValue)
    (hk : (ts.map (fun t => jsToString (.num t.1))).Nodup)
    (hp : rs.Perm (ts.map echoResponse)) :
    receiveAll ⟨regs, [], ts.map (fun t => initCall t.1 t.2.1), subs⟩ rs
      = .ok ⟨regs, [], ts.map (fun t => resolvedCall t.1 t.2.1 t.2.2), subs⟩ := by
  have hout : ∀ m ∈ rs, ∃ cv nv dv eo, m = encodeOutput cv nv dv eo := by
    intro m hm
    obtain ⟨t, ht, rfl⟩ := List.mem_map.mp (hp.mem_iff.mp hm)
    exact ⟨_, _, _, _, rfl⟩
  rw [receiveAll_responses _ rs rfl hout]
  have hcalls : (ts.map (fun t => initCall t.1 t.2.1)).map
      (fun c => runCall c (rs.map outputEvent))
      = ts.map (fun t => resolvedCall t.1 t.2.1 t.2.2) := by
    rw [List.map_map]
    refine List.map_congr_left (fun t ht => ?_)
    refine runCall_single_match t.1 t.2.1 t.2.2 (rs.map outputEvent) ?_ ?_ ?_
    · -- exactly one matching response among the delivered events
      rw [List.countP_map, hp.countP_eq, List.countP_map]
      have hcnt := List.count_eq_one_of_mem hk
        (List.mem_map_of_mem (fun t : Int × String × JsValue => jsToString (.num t.1)) ht)
      rw [List.count_eq_countP, List.countP_map] at hcnt
      refine Eq.trans (List.countP_congr ?_) hcnt
      intro t' _
      simp [Function.comp, outputEvent_echoResponse, matchesKey]
    · intro e he hme
      obtain ⟨m, hm, rfl⟩ := List.mem_map.mp he
      obtain ⟨t', ht', rfl⟩ := List.mem_map.mp (hp.mem_iff.mp hm)
      rw [outputEvent_echoResponse] at hme ⊢
      have hkeq : jsToString (.num t'.1) = jsToString (.num t.1) := by
        simpa [matchesKey] using hme
      have : t' = t := List.inj_on_of_nodup_map hk ht' ht hkeq
      rw [this]
    · intro e he
      obtain ⟨m, hm, rfl⟩ := List.mem_map.mp he
      exact outputEvent_ne_timerFire m
  simp [hcalls]

theorem act_demux_any_reply_order_witness :
    (([(1, "a", JsValue.str "x"), (2, "b", JsValue.str "y")].map
        (fun t => jsToString (.num t.1))).Nodup
    ∧ List.Perm
        [echoResponse (2, "b", JsValue.str "y"), echoResponse (1, "a", JsValue.str "x")]
        ([(1, "a", JsValue.str "x"), (2, "b", JsValue.str "y")].map echoResponse))
    ∧ receiveAll ⟨[], [],
          [(1, "a", JsValue.str "x"), (2, "b", JsValue.str "y")].map
            (fun t => initCall t.1 t.2.1), []⟩
        [echoResponse (2, "b", JsValue.str "y"), echoResponse (1, "a", JsValue.str "x")]
      = .ok ⟨[], [],
          [(1, "a", JsValue.str "x"), (2, "b", JsValue.str "y")].map
            (fun t => resolvedCall t.1 t.2.1 t.2.2), []⟩ :=
  ⟨⟨by decide, List.Perm.swap _ _ _⟩,
   act_demux_any_reply_order
     [(1, "a", JsValue.str "x"), (2, "b", JsValue.str "y")] [] []
     [echoResponse (2, "b", JsValue.str "y"), echoResponse (1, "a", JsValue.str "x")]
     (by decide) (List.Perm.swap _ _ _)⟩

end SimpleIpc
